import Mathlib

/-!
Verification of the `refraction-calc` atmospheric-refraction calculator.

This file gives a shallow embedding of the program's numerical core
(`src/main.rs`, `src/params.rs`, `src/ray_state.rs`) and proves properties
of it.  Conventions of the embedding:

* `f64` values are modelled as exact rationals (`ℚ`); the floating-point
  literals of the source (`5000e3`, `0.00001`, `0.01`, `530e-9`, `2e5`)
  become the corresponding rationals.
* The external crates (`atm_refraction`, `air`, `na`) are out of scope of
  the program's own code; their interfaces are modelled as abstract data:
  an `Atmosphere` is a pair of pressure/temperature functions, the
  empirical formula `air_index_minus_1` is an arbitrary function parameter,
  a `Path` is a pair of query functions `h_at_dist` / `angle_at_dist`, and
  `Environment::cast_ray` / `cast_ray_target` are uninterpreted
  path-producing fields.
* The `while` loop of `find_dist_for_h` halves its bracket exactly on every
  iteration, so over exact arithmetic it runs exactly 39 iterations from
  the initial bracket `(0, 5000000)`; it is embedded as a fuel-indexed
  iteration with fuel 39, and fuel-independence (running it with any larger
  fuel gives the same bracket) is proved below.
* Angle-valued outputs are modelled in radians; the `to_degrees()` /
  division-by-1000 conversions applied by the printing code are display
  formatting and are not part of the embedded values.
-/

namespace RefractionCalc

/-- Model of the external `air::Atmosphere` interface: pressure (Pa) and
temperature (K) as functions of altitude (m). -/
structure Atmosphere where
  pressure : ℚ → ℚ
  temperature : ℚ → ℚ

/-- Type of the external empirical air-refractivity formula
`air_index_minus_1(wavelength, pressure, temperature, rh)`, kept abstract. -/
abbrev AirIndex : Type := ℚ → ℚ → ℚ → ℚ → ℚ

/-- Embedding of `n_minus_1` from `src/ray_state.rs`: evaluates the
empirical formula at fixed wavelength 530 nm (`530e-9` m), the atmosphere's
pressure and temperature at altitude `h`, and relative humidity 0. -/
def n_minus_1 (air_index_minus_1 : AirIndex) (atm : Atmosphere) (h : ℚ) : ℚ :=
  let pressure := atm.pressure h
  let temperature := atm.temperature h
  let rh : ℚ := 0
  air_index_minus_1 (53 / 100000000) pressure temperature rh

/-- Embedding of `n` from `src/ray_state.rs`: the refractive index
`n_minus_1(atm, h) + 1.0`. -/
def n (air_index_minus_1 : AirIndex) (atm : Atmosphere) (h : ℚ) : ℚ :=
  n_minus_1 air_index_minus_1 atm h + 1

/-- Embedding of `dn` from `src/ray_state.rs`: centered finite difference
of `n_minus_1` with step `epsilon = 0.01` m. -/
def dn (air_index_minus_1 : AirIndex) (atm : Atmosphere) (h : ℚ) : ℚ :=
  let epsilon : ℚ := 1 / 100
  let n1 := n_minus_1 air_index_minus_1 atm (h - epsilon)
  let n2 := n_minus_1 air_index_minus_1 atm (h + epsilon)
  (n2 - n1) / (2 * epsilon)

/-- Embedding of `RayState` from `src/ray_state.rs`. -/
structure RayState where
  x : ℚ
  h : ℚ
  dr : ℚ
deriving DecidableEq

/-- Embedding of `RayStateDerivative` from `src/ray_state.rs`. -/
structure RayStateDerivative where
  dx : ℚ
  dr : ℚ
  d2r : ℚ
deriving DecidableEq

/-- Embedding of `calc_derivative_spherical` from `src/ray_state.rs`. -/
def calc_derivative_spherical (air_index_minus_1 : AirIndex) (atm : Atmosphere)
    (radius : ℚ) (state : RayState) : RayStateDerivative :=
  let dr := state.dr
  let h := state.h
  let nr := n air_index_minus_1 atm h
  let dnr := dn air_index_minus_1 atm h
  let r := h + radius
  let d2r := dr * dr * dnr / nr + r * r * dnr / nr + 2 * dr * dr / r + r
  { dx := 1, dr := dr, d2r := d2r }

/-- Embedding of `calc_derivative_flat` from `src/ray_state.rs`. -/
def calc_derivative_flat (air_index_minus_1 : AirIndex) (atm : Atmosphere)
    (state : RayState) : RayStateDerivative :=
  let dr := state.dr
  let h := state.h
  let nr := n air_index_minus_1 atm h
  let dnr := dn air_index_minus_1 atm h
  let d2r := dnr / nr * (1 + dr * dr)
  { dx := 1, dr := dr, d2r := d2r }

/-- Embedding of `impl Add for RayStateDerivative` (componentwise). -/
def RayStateDerivative.add (a b : RayStateDerivative) : RayStateDerivative :=
  { dx := a.dx + b.dx, dr := a.dr + b.dr, d2r := a.d2r + b.d2r }

/-- Embedding of `impl Sub for RayStateDerivative` (componentwise). -/
def RayStateDerivative.sub (a b : RayStateDerivative) : RayStateDerivative :=
  { dx := a.dx - b.dx, dr := a.dr - b.dr, d2r := a.d2r - b.d2r }

/-- Embedding of `impl Mul<f64> for RayStateDerivative` (componentwise
scalar multiplication). -/
def RayStateDerivative.mul (a : RayStateDerivative) (other : ℚ) : RayStateDerivative :=
  { dx := a.dx * other, dr := a.dr * other, d2r := a.d2r * other }

/-- Embedding of `impl Div<f64> for RayStateDerivative` (componentwise
scalar division). -/
def RayStateDerivative.div (a : RayStateDerivative) (other : ℚ) : RayStateDerivative :=
  { dx := a.dx / other, dr := a.dr / other, d2r := a.d2r / other }

/-- Embedding of `impl Neg for RayStateDerivative` (componentwise negation). -/
def RayStateDerivative.neg (a : RayStateDerivative) : RayStateDerivative :=
  { dx := -a.dx, dr := -a.dr, d2r := -a.d2r }

/-- Embedding of `StateDerivative::abs` for `RayStateDerivative`:
`(dx*dx + dr*dr + d2r*d2r).sqrt()`, the Euclidean magnitude, valued in ℝ. -/
noncomputable def RayStateDerivative.abs (a : RayStateDerivative) : ℝ :=
  Real.sqrt ((a.dx : ℝ) * a.dx + (a.dr : ℝ) * a.dr + (a.d2r : ℝ) * a.d2r)

/-- Model of the external `Path` trait: a trajectory queryable for altitude
and (radian) angle at any distance. -/
structure Path where
  h_at_dist : ℚ → ℚ
  angle_at_dist : ℚ → ℚ

/-- One iteration of the `while` loop body of `find_dist_for_h` from
`src/main.rs`: probe the midpoint `cur_dist = 0.5 * (min_dist + max_dist)`;
if `h_at_dist(cur_dist) > tgt_h` the bracket becomes `(min_dist, cur_dist)`,
otherwise `(cur_dist, max_dist)`. -/
def bisectStep (ray : Path) (tgt_h : ℚ) (b : ℚ × ℚ) : ℚ × ℚ :=
  let cur_dist := 1 / 2 * (b.1 + b.2)
  let h := ray.h_at_dist cur_dist
  if h > tgt_h then (b.1, cur_dist) else (cur_dist, b.2)

/-- Fuel-indexed embedding of the `while max_dist - min_dist > 0.00001`
loop of `find_dist_for_h`: perform at most `fuel` iterations, stopping
early when the bracket width is no longer above the tolerance. -/
def bisectIter (ray : Path) (tgt_h : ℚ) : ℕ → ℚ × ℚ → ℚ × ℚ
  | 0, b => b
  | fuel + 1, b =>
    if b.2 - b.1 > 1 / 100000 then bisectIter ray tgt_h fuel (bisectStep ray tgt_h b)
    else b

/-- Embedding of `find_dist_for_h` from `src/main.rs`: bisection on the
bracket `(0, 5000e3)` down to width `0.00001`, returning the midpoint of
the final bracket.  Fuel 39 is exact: the width halves on every iteration,
and `5000000 / 2 ^ 39` is the first width not above the tolerance
(fuel-independence is proved in `bisectIter_fuel_ge`). -/
def find_dist_for_h (ray : Path) (tgt_h : ℚ) : ℚ :=
  let b := bisectIter ray tgt_h 39 (0, 5000000)
  1 / 2 * (b.1 + b.2)

/-- Embedding of `EarthShape` from the `atm_refraction` interface used by
`src/main.rs` and `src/params.rs`. -/
inductive EarthShape
  | Flat
  | Spherical (radius : ℚ)

/-- Embedding of the `Output::Astronomical` arm of `main` in
`src/main.rs`: the astronomical deflection angle (radians), computed from
the starting angle, the distance to the 200 km boundary (`2e5` m), and the
final angle, with the `dist/radius` correction in the spherical case. -/
def astronomicalOutput (shape : EarthShape) (ray : Path) : ℚ :=
  let start_ang := ray.angle_at_dist 0
  let dist_to_200km := find_dist_for_h ray 200000
  let final_ang := ray.angle_at_dist dist_to_200km
  match shape with
  | EarthShape.Spherical radius => start_ang - final_ang + dist_to_200km / radius
  | EarthShape.Flat => start_ang - final_ang

/-- Embedding of the `Output::HorizonAngle` arm of `main` in
`src/main.rs`: the reported angle (radians; the sign-preserving
`to_degrees` display conversion is omitted). -/
def horizonAngleOutput (ray : Path) (start_h : ℚ) : ℚ :=
  let dist_to_target_h := find_dist_for_h ray start_h
  let ang := ray.angle_at_dist dist_to_target_h;
  -ang

/-- Embedding of the `Output::HorizonDistance` arm of `main` in
`src/main.rs` (in meters; the division by 1000 for km display is omitted). -/
def horizonDistanceOutput (ray : Path) (start_h : ℚ) : ℚ :=
  find_dist_for_h ray start_h

/-- Embedding of `RayDir` from `src/params.rs`. -/
inductive RayDir
  | Angle (ang : ℚ)
  | Target (h : ℚ) (dist : ℚ)
  | Horizon

/-- Embedding of `RayData` from `src/params.rs`. -/
structure RayData where
  start_h : ℚ
  dir : RayDir

/-- Embedding of `Output` from `src/params.rs`. -/
inductive Output
  | HAtDist (dist : ℚ)
  | Angle
  | HorizonAngle
  | HorizonDistance
  | Astronomical
deriving DecidableEq

/-- Model of the external `Environment`: the Earth shape together with the
two (uninterpreted) path-producing operations of the `atm_refraction`
crate, `cast_ray(start_h, angle_radians, straight)` and
`cast_ray_target(start_h, tgt_h, tgt_dist, straight)`. -/
structure Environment where
  shape : EarthShape
  cast_ray : ℚ → ℚ → Bool → Path
  cast_ray_target : ℚ → ℚ → ℚ → Bool → Path

/-- Embedding of `Params` from `src/params.rs`. -/
structure Params where
  ray : RayData
  env : Environment
  straight : Bool
  output : List Output
  verbose : Bool

/-- Embedding of `create_path` from `src/params.rs`.  The f64 library
conversion `to_radians` (multiplication by the irrational π/180) is passed
in abstractly. -/
def create_path (to_radians : ℚ → ℚ) (params : Params) : Path :=
  match params.ray.dir with
  | RayDir.Angle ang => params.env.cast_ray params.ray.start_h (to_radians ang) params.straight
  | RayDir.Target h dist => params.env.cast_ray_target params.ray.start_h h dist params.straight
  | RayDir.Horizon => params.env.cast_ray 0 0 params.straight

/-- The output-request flags of `parse_arguments` in `src/params.rs`, with
`output_dist` already parsed to a value when present and parseable. -/
structure OutputFlags where
  output_dist : Option ℚ
  output_ang : Bool
  output_astronomical : Bool
  output_horizon : Bool
  output_horizon_dist : Bool

/-- Embedding of the output-list assembly of `parse_arguments`
(`src/params.rs` lines 191-209): pushes for `output_dist` (km converted to
m), `output_ang` and `output_astronomical`, then wholesale replacement of
the list by `[HorizonAngle]` when `output_horizon` is set and by
`[HorizonDistance]` when `output_horizon_dist` is set. -/
def buildOutputs (flags : OutputFlags) : List Output :=
  let out0 : List Output := []
  let out1 := match flags.output_dist with
    | some dist => out0 ++ [Output.HAtDist (dist * 1000)]
    | none => out0
  let out2 := if flags.output_ang then out1 ++ [Output.Angle] else out1
  let out3 := if flags.output_astronomical then out2 ++ [Output.Astronomical] else out2
  let out4 := if flags.output_horizon then [Output.HorizonAngle] else out3
  if flags.output_horizon_dist then [Output.HorizonDistance] else out4

/-- One bisection step halves the bracket width exactly, in either branch. -/
theorem bisectStep_width (ray : Path) (tgt_h : ℚ) (b : ℚ × ℚ) :
    (bisectStep ray tgt_h b).2 - (bisectStep ray tgt_h b).1 = (b.2 - b.1) / 2 := by
  simp only [bisectStep]
  split <;> dsimp only <;> ring

/-- One bisection step keeps the bracket inside the previous one and
ordered, when the previous bracket is ordered. -/
theorem bisectStep_bounds (ray : Path) (tgt_h : ℚ) (b : ℚ × ℚ) (hb : b.1 ≤ b.2) :
    b.1 ≤ (bisectStep ray tgt_h b).1 ∧ (bisectStep ray tgt_h b).2 ≤ b.2 ∧
      (bisectStep ray tgt_h b).1 ≤ (bisectStep ray tgt_h b).2 := by
  simp only [bisectStep]
  split <;> dsimp only <;> exact ⟨by linarith, by linarith, by linarith⟩

/-- With enough initial width relative to the fuel, every iteration's guard
holds, so the bracket width after the iteration is the initial width
divided by `2 ^ fuel` — the width halves on every executed iteration. -/
theorem bisectIter_width (ray : Path) (tgt_h : ℚ) (fuel : ℕ) :
    ∀ b : ℚ × ℚ, (1 / 100000 : ℚ) * 2 ^ fuel < (b.2 - b.1) * 2 →
      (bisectIter ray tgt_h fuel b).2 - (bisectIter ray tgt_h fuel b).1 =
        (b.2 - b.1) / 2 ^ fuel := by
  induction fuel with
  | zero => intro b _; simp [bisectIter]
  | succ k ih =>
    intro b hfuel
    have h1 : (1 : ℚ) ≤ 2 ^ k := one_le_pow₀ (by norm_num)
    have h2 : (1 / 100000 : ℚ) * 2 ^ k < b.2 - b.1 := by
      rw [pow_succ] at hfuel; linarith
    have hguard : b.2 - b.1 > 1 / 100000 := by nlinarith
    have hw := bisectStep_width ray tgt_h b
    have hrec := ih (bisectStep ray tgt_h b) (by rw [hw]; linarith)
    simp only [bisectIter, if_pos hguard]
    rw [hrec, hw, pow_succ]
    ring

/-- When the guard already fails, the loop leaves the bracket unchanged,
whatever the fuel. -/
theorem bisectIter_stable (ray : Path) (tgt_h : ℚ) (fuel : ℕ) (b : ℚ × ℚ)
    (hb : ¬(b.2 - b.1 > 1 / 100000)) : bisectIter ray tgt_h fuel b = b := by
  cases fuel with
  | zero => rfl
  | succ k => simp only [bisectIter, if_neg hb]

/-- Fuel splits: iterating `m + k` times is iterating `m` times and then
`k` more times. -/
theorem bisectIter_add (ray : Path) (tgt_h : ℚ) (m : ℕ) :
    ∀ (k : ℕ) (b : ℚ × ℚ),
      bisectIter ray tgt_h (m + k) b =
        bisectIter ray tgt_h k (bisectIter ray tgt_h m b) := by
  induction m with
  | zero => intro k b; rw [Nat.zero_add]; rfl
  | succ j ih =>
    intro k b
    have hmk : j + 1 + k = (j + k) + 1 := by omega
    rw [hmk]
    by_cases hg : b.2 - b.1 > 1 / 100000
    · simp only [bisectIter, if_pos hg]
      exact ih k (bisectStep ray tgt_h b)
    · simp only [bisectIter, if_neg hg]
      exact (bisectIter_stable ray tgt_h k b hg).symm

/-- The loop never leaves the initial bracket and keeps it ordered. -/
theorem bisectIter_bounds (ray : Path) (tgt_h : ℚ) (fuel : ℕ) :
    ∀ b : ℚ × ℚ, b.1 ≤ b.2 →
      b.1 ≤ (bisectIter ray tgt_h fuel b).1 ∧ (bisectIter ray tgt_h fuel b).2 ≤ b.2 ∧
        (bisectIter ray tgt_h fuel b).1 ≤ (bisectIter ray tgt_h fuel b).2 := by
  induction fuel with
  | zero => intro b hb; exact ⟨le_refl _, le_refl _, hb⟩
  | succ k ih =>
    intro b hb
    by_cases hg : b.2 - b.1 > 1 / 100000
    · obtain ⟨hs1, hs2, hs3⟩ := bisectStep_bounds ray tgt_h b hb
      obtain ⟨hi1, hi2, hi3⟩ := ih (bisectStep ray tgt_h b) hs3
      simp only [bisectIter, if_pos hg]
      exact ⟨le_trans hs1 hi1, le_trans hi2 hs2, hi3⟩
    · simp only [bisectIter, if_neg hg]
      exact ⟨le_refl _, le_refl _, hb⟩

/-- The loop body and therefore the whole search depend only on the values
of the path's `h_at_dist` queries. -/
theorem bisectIter_congr (p q : Path) (tgt_h : ℚ)
    (h : ∀ x, p.h_at_dist x = q.h_at_dist x) (fuel : ℕ) :
    ∀ b : ℚ × ℚ, bisectIter p tgt_h fuel b = bisectIter q tgt_h fuel b := by
  induction fuel with
  | zero => intro b; rfl
  | succ k ih =>
    intro b
    simp only [bisectIter]
    split
    · rw [show bisectStep p tgt_h b = bisectStep q tgt_h b from by simp only [bisectStep, h],
        ih]
    · rfl

/-- C1: `find_dist_for_h` bisects the bracket `[0, 5000000]`, probing the
midpoint and keeping the half bracket selected by the sign of
`h_at_dist(mid) - tgt_h`, and returns the midpoint of the final bracket:
for every path and every target the result lies in `[0, 5000000]` and is
within `1e-5` of both ends of the final bracket; the function is total, so
it returns a value even when the altitude never crosses the target. -/
theorem find_dist_for_h_in_bracket (ray : Path) (tgt_h : ℚ) :
    0 ≤ find_dist_for_h ray tgt_h ∧ find_dist_for_h ray tgt_h ≤ 5000000 ∧
    |find_dist_for_h ray tgt_h - (bisectIter ray tgt_h 39 (0, 5000000)).1| ≤ 1 / 100000 ∧
    |(bisectIter ray tgt_h 39 (0, 5000000)).2 - find_dist_for_h ray tgt_h| ≤ 1 / 100000 := by
  obtain ⟨h1, h2, h3⟩ := bisectIter_bounds ray tgt_h 39 (0, 5000000) (by norm_num)
  have hwidth := bisectIter_width ray tgt_h 39 (0, 5000000) (by norm_num)
  norm_num at h1 h2
  have hfind : find_dist_for_h ray tgt_h =
      1 / 2 * ((bisectIter ray tgt_h 39 (0, 5000000)).1 +
        (bisectIter ray tgt_h 39 (0, 5000000)).2) := rfl
  set c := bisectIter ray tgt_h 39 (0, 5000000) with hc
  have hb : c.2 - c.1 ≤ 2 / 100000 := by rw [hwidth]; norm_num
  refine ⟨by rw [hfind]; linarith, by rw [hfind]; linarith, ?_, ?_⟩
  · rw [hfind, abs_le]
    constructor <;> linarith
  · rw [hfind, abs_le]
    constructor <;> linarith

/-- C6: the bisection loop of `find_dist_for_h` terminates for every path
and target: the bracket width is exactly halved on every iteration
starting from `5000000`, so it is still above the tolerance after 38
iterations but not after 39 — the loop condition fails after exactly 39
iterations, and granting the loop any extra fuel changes nothing. -/
theorem find_dist_loop_terminates (ray : Path) (tgt_h : ℚ) :
    (bisectIter ray tgt_h 38 (0, 5000000)).2 - (bisectIter ray tgt_h 38 (0, 5000000)).1 =
      5000000 / 2 ^ 38 ∧
    ((5000000 : ℚ) / 2 ^ 38 > 1 / 100000) ∧
    (bisectIter ray tgt_h 39 (0, 5000000)).2 - (bisectIter ray tgt_h 39 (0, 5000000)).1 =
      5000000 / 2 ^ 39 ∧
    ¬((5000000 : ℚ) / 2 ^ 39 > 1 / 100000) ∧
    ∀ extra : ℕ, bisectIter ray tgt_h (39 + extra) (0, 5000000) =
      bisectIter ray tgt_h 39 (0, 5000000) := by
  have h38 := bisectIter_width ray tgt_h 38 (0, 5000000) (by norm_num)
  have h39 := bisectIter_width ray tgt_h 39 (0, 5000000) (by norm_num)
  have hng : ¬((bisectIter ray tgt_h 39 (0, 5000000)).2 -
      (bisectIter ray tgt_h 39 (0, 5000000)).1 > 1 / 100000) := by
    rw [h39]; norm_num
  refine ⟨by rw [h38]; norm_num, by norm_num, by rw [h39]; norm_num, by norm_num, ?_⟩
  intro extra
  rw [bisectIter_add ray tgt_h 39 extra (0, 5000000)]
  exact bisectIter_stable ray tgt_h extra _ hng

/-- C9: `find_dist_for_h` is deterministic — it depends only on the values
of the path's altitude queries and the target, so recomputing it on a path
with the same `h_at_dist` yields exactly the same distance. -/
theorem find_dist_for_h_deterministic (p q : Path) (tgt_h : ℚ)
    (h : ∀ x, p.h_at_dist x = q.h_at_dist x) :
    find_dist_for_h p tgt_h = find_dist_for_h q tgt_h := by
  simp only [find_dist_for_h]
  rw [bisectIter_congr p q tgt_h h 39 (0, 5000000)]

/-- Witness for C9: two path values with the same altitude profile (but
different angle profiles) give the same bisection result. -/
theorem find_dist_for_h_deterministic_witness :
    find_dist_for_h ⟨fun _ => 0, fun _ => 0⟩ 100 =
      find_dist_for_h ⟨fun _ => 0, fun _ => 1⟩ 100 :=
  find_dist_for_h_deterministic ⟨fun _ => 0, fun _ => 0⟩ ⟨fun _ => 0, fun _ => 1⟩ 100
    (fun _ => rfl)

/-- C2: for every atmosphere, radius `R`, and ray state `{x, h, dr}`,
`calc_derivative_spherical` returns `RayStateDerivative{dx: 1, dr: the
state's dr, d2r: dr² · (dn/n) + r² · (dn/n) + 2 · dr²/r + r}` where
`r = h + R` and `dn/n` is the logarithmic refractive-index gradient. -/
theorem calc_derivative_spherical_eq (ai : AirIndex) (atm : Atmosphere) (radius : ℚ)
    (s : RayState) :
    calc_derivative_spherical ai atm radius s =
      { dx := 1, dr := s.dr,
        d2r := s.dr ^ 2 * (dn ai atm s.h / n ai atm s.h)
          + (s.h + radius) ^ 2 * (dn ai atm s.h / n ai atm s.h)
          + 2 * s.dr ^ 2 / (s.h + radius) + (s.h + radius) } := by
  simp only [calc_derivative_spherical, RayStateDerivative.mk.injEq, true_and]
  ring

/-- C3: for every atmosphere and ray state `{x, h, dr}`,
`calc_derivative_flat` returns `RayStateDerivative{dx: 1, dr: the state's
dr, d2r: (dn/n) · (1 + dr²)}`; and when `n_minus_1` is constant in
altitude the centered difference `dn` is 0, so `d2r` is exactly 0. -/
theorem calc_derivative_flat_eq (ai : AirIndex) (atm : Atmosphere) (s : RayState) :
    calc_derivative_flat ai atm s =
      { dx := 1, dr := s.dr,
        d2r := dn ai atm s.h / n ai atm s.h * (1 + s.dr ^ 2) } ∧
    ((∀ h1 h2 : ℚ, n_minus_1 ai atm h1 = n_minus_1 ai atm h2) →
      (calc_derivative_flat ai atm s).d2r = 0) := by
  constructor
  · simp only [calc_derivative_flat, RayStateDerivative.mk.injEq, true_and]
    ring
  · intro hconst
    have hdn : dn ai atm s.h = 0 := by
      simp only [dn]
      rw [hconst (s.h + 1 / 100) (s.h - 1 / 100)]
      simp
    simp [calc_derivative_flat, hdn]

/-- Witness for C3: a constant empirical formula makes `n_minus_1`
altitude-independent, and then the flat-geometry curvature vanishes. -/
theorem calc_derivative_flat_witness :
    (calc_derivative_flat (fun _ _ _ _ => 7) ⟨fun _ => 0, fun _ => 0⟩ ⟨0, 5, 2⟩).d2r = 0 :=
  (calc_derivative_flat_eq (fun _ _ _ _ => 7) ⟨fun _ => 0, fun _ => 0⟩ ⟨0, 5, 2⟩).2
    (fun _ _ => rfl)

/-- C5: the refractive index is `n(atm, h) = 1 + n_minus_1(atm, h)`,
`n_minus_1` evaluates the empirical formula at wavelength 530 nm, the
atmosphere's pressure and temperature at `h`, and relative humidity 0, and
`dn` is the centered difference with step ε = 0.01 m. -/
theorem refractive_index_model_eq (ai : AirIndex) (atm : Atmosphere) (h : ℚ) :
    n ai atm h = 1 + n_minus_1 ai atm h ∧
    n_minus_1 ai atm h = ai (53 / 100000000) (atm.pressure h) (atm.temperature h) 0 ∧
    dn ai atm h =
      (n_minus_1 ai atm (h + 1 / 100) - n_minus_1 ai atm (h - 1 / 100)) / (2 * (1 / 100)) :=
  ⟨by rw [n]; ring, rfl, rfl⟩

/-- C4: the astronomical deflection output is `start_angle - final_angle`
for the Flat shape and `start_angle - final_angle + d/radius` for the
Spherical shape, where `start_angle = angle_at_dist(0)`,
`d = find_dist_for_h(path, 200000)` and `final_angle = angle_at_dist(d)`. -/
theorem astronomical_deflection_eq (ray : Path) (radius : ℚ) :
    astronomicalOutput EarthShape.Flat ray =
      ray.angle_at_dist 0 - ray.angle_at_dist (find_dist_for_h ray 200000) ∧
    astronomicalOutput (EarthShape.Spherical radius) ray =
      ray.angle_at_dist 0 - ray.angle_at_dist (find_dist_for_h ray 200000)
        + find_dist_for_h ray 200000 / radius :=
  ⟨rfl, rfl⟩

/-- C8: in Horizon mode the path is cast from altitude 0 with launch angle
0, independently of the configured starting altitude; `start_h` enters
only as the target altitude of the bisection, and the reported horizon
angle is the negation of `angle_at_dist` at the found distance. -/
theorem horizon_mode_wiring (to_radians : ℚ → ℚ) (env : Environment)
    (start_h s1 s2 : ℚ) (straight : Bool) (out : List Output) (verbose : Bool) :
    create_path to_radians ⟨⟨start_h, RayDir.Horizon⟩, env, straight, out, verbose⟩ =
      env.cast_ray 0 0 straight ∧
    create_path to_radians ⟨⟨s1, RayDir.Horizon⟩, env, straight, out, verbose⟩ =
      create_path to_radians ⟨⟨s2, RayDir.Horizon⟩, env, straight, out, verbose⟩ ∧
    horizonAngleOutput (env.cast_ray 0 0 straight) start_h =
      -((env.cast_ray 0 0 straight).angle_at_dist
        (find_dist_for_h (env.cast_ray 0 0 straight) start_h)) ∧
    horizonDistanceOutput (env.cast_ray 0 0 straight) start_h =
      find_dist_for_h (env.cast_ray 0 0 straight) start_h :=
  ⟨rfl, rfl, rfl, rfl⟩

/-- C10: the componentwise operations on `RayStateDerivative` satisfy the
vector-space laws (commutativity of addition, additive inverse, scalar
multiplication cancelled by scalar division for a nonzero scalar, negation
as multiplication by -1), and `abs` is the non-negative Euclidean
magnitude `sqrt(dx² + dr² + d2r²)`. -/
theorem rayStateDerivative_vector_space (a b : RayStateDerivative) (s : ℚ) (hs : s ≠ 0) :
    a.add b = b.add a ∧
    a.add a.neg = { dx := 0, dr := 0, d2r := 0 } ∧
    (a.mul s).div s = a ∧
    a.neg = a.mul (-1) ∧
    a.abs = Real.sqrt ((a.dx : ℝ) ^ 2 + (a.dr : ℝ) ^ 2 + (a.d2r : ℝ) ^ 2) ∧
    0 ≤ a.abs := by
  obtain ⟨adx, adr, ad2r⟩ := a
  obtain ⟨bdx, bdr, bd2r⟩ := b
  refine ⟨?_, ?_, ?_, ?_, ?_, Real.sqrt_nonneg _⟩
  · simp only [RayStateDerivative.add, RayStateDerivative.mk.injEq]
    exact ⟨add_comm _ _, add_comm _ _, add_comm _ _⟩
  · simp [RayStateDerivative.add, RayStateDerivative.neg]
  · simp only [RayStateDerivative.mul, RayStateDerivative.div, RayStateDerivative.mk.injEq]
    exact ⟨mul_div_cancel_right₀ _ hs, mul_div_cancel_right₀ _ hs, mul_div_cancel_right₀ _ hs⟩
  · simp only [RayStateDerivative.neg, RayStateDerivative.mul, RayStateDerivative.mk.injEq]
    refine ⟨by ring, by ring, by ring⟩
  · simp only [RayStateDerivative.abs]
    congr 1
    ring

/-- Witness for C10: scalar multiplication by 2 followed by division by 2
is the identity on a concrete derivative vector. -/
theorem rayStateDerivative_vector_space_witness :
    ((⟨1, 2, 3⟩ : RayStateDerivative).mul 2).div 2 = ⟨1, 2, 3⟩ :=
  (rayStateDerivative_vector_space ⟨1, 2, 3⟩ ⟨4, 5, 6⟩ 2 (by norm_num)).2.2.1

/-- Counterexample for C7: with `--output-ang` and `--output-horizon` both
requested, the assembled output list is `[HorizonAngle]` only — the
requested starting-angle output is dropped, contradicting the claim that
any combination of requested outputs is honoured. -/
theorem buildOutputs_drops_requested_angle :
    (⟨none, true, false, true, false⟩ : OutputFlags).output_ang = true ∧
    Output.Angle ∉ buildOutputs ⟨none, true, false, true, false⟩ := by
  decide

/-- C7 amended: requesting the horizon distance replaces the output list
with `[HorizonDistance]`; otherwise requesting the horizon angle replaces
it with `[HorizonAngle]`; when neither horizon output is requested, the
produced list contains an entry for every requested output. -/
theorem buildOutputs_amended (flags : OutputFlags) :
    (flags.output_horizon_dist = true → buildOutputs flags = [Output.HorizonDistance]) ∧
    (flags.output_horizon = true → flags.output_horizon_dist = false →
      buildOutputs flags = [Output.HorizonAngle]) ∧
    (flags.output_horizon = false → flags.output_horizon_dist = false →
      ((∀ d : ℚ, flags.output_dist = some d → Output.HAtDist (d * 1000) ∈ buildOutputs flags) ∧
       (flags.output_ang = true → Output.Angle ∈ buildOutputs flags) ∧
       (flags.output_astronomical = true → Output.Astronomical ∈ buildOutputs flags))) := by
  obtain ⟨od, oa, oast, oh, ohd⟩ := flags
  cases od <;> cases oa <;> cases oast <;> cases oh <;> cases ohd <;>
    simp [buildOutputs]

/-- Witness for C7's amended theorem: with altitude-at-distance, starting
angle and astronomical outputs all requested and no horizon output, the
starting-angle output is present in the list. -/
theorem buildOutputs_amended_witness :
    Output.Angle ∈ buildOutputs ⟨some 5, true, true, false, false⟩ :=
  ((buildOutputs_amended ⟨some 5, true, true, false, false⟩).2.2 rfl rfl).2.1 rfl

end RefractionCalc
